import Mathlib

/-!
Verification of the seaview task-scheduling core (`src/db_operations.py`,
`src/db_schema.py`).

Modelling conventions:
* Dates are integers counting days.  Every date stored by the generator is a
  midnight `datetime`, and every date mutation performed by the verified
  operations adds a whole number of days, so integer days are exact.
* Durations are likewise integers.  The source keeps durations as Python
  floats (half-day steps), but none of the verified operations performs
  arithmetic on a fractional duration: the only duration ever written to the
  store by the generator is the column default `1.0`
  (`db_schema.py`, `CXTask.duration = Column(Double, default=1.0)`), and
  `recalculate_task_end_time` never reaches its arithmetic (see below).
* A SQLAlchemy session whose `commit` raises is rolled back; a rolled-back
  operation is modelled as returning the store it received.
* A `query(...).filter(CXTask.id == tid).first()` lookup is `getTask`; an
  attribute assignment on the returned row followed by `commit` is
  `setFirstTask`, which replaces the first row with that id.
-/

/-- Row of the `seaview.tasks` table (`db_schema.py`, class `CXTask`).
Columns not read or written by any verified operation (`title`, `status`,
`is_active`, `progress`, `budget`, `spend`) are omitted.  `project_id` is
kept non-optional: every task built by the generator carries a project id. -/
structure CXTask where
  project_id : Nat
  parent_id : Option Nat
  start_date : Option Int
  end_date : Option Int
  duration : Option Int
deriving DecidableEq, Repr

/-- The `tasks` table: rows keyed by task id, in insertion order. -/
abbrev Store := List (Nat × CXTask)

/-- `session.query(CXTask).filter(CXTask.id == tid).first()`: the first row
with the given id, or `None`. -/
def getTask : Store → Nat → Option CXTask
  | [], _ => none
  | p :: ps, tid => if p.1 == tid then some p.2 else getTask ps tid

/-- Assigning to an attribute of the row returned by `.first()` and
committing: the first row with the given id is replaced. -/
def setFirstTask : Store → Nat → CXTask → Store
  | [], _, _ => []
  | p :: ps, tid, t => if p.1 == tid then (tid, t) :: ps else p :: setFirstTask ps tid t

/-- `DBOperations.get_task_start_date` (db_operations.py:195): the task's
start date, or `None` when no row matches. -/
def get_task_start_date (s : Store) (tid : Nat) : Option Int :=
  (getTask s tid).bind CXTask.start_date

/-- `DBOperations.get_task_end_date` (db_operations.py:213). -/
def get_task_end_date (s : Store) (tid : Nat) : Option Int :=
  (getTask s tid).bind CXTask.end_date

/-- `DBOperations.get_task_duration` (db_operations.py:231). -/
def get_task_duration (s : Store) (tid : Nat) : Option Int :=
  (getTask s tid).bind CXTask.duration

/-- `DBOperations.get_task_project_id` (db_operations.py:176). -/
def get_task_project_id (s : Store) (tid : Nat) : Option Nat :=
  (getTask s tid).map CXTask.project_id

/-- `DBOperations.update_task_start_date` (db_operations.py:475): look the
task up, return silently when missing, otherwise set `start_date` and
commit.  No other column is touched. -/
def update_task_start_date (s : Store) (tid : Nat) (d : Int) : Store :=
  match getTask s tid with
  | none => s
  | some t => setFirstTask s tid { t with start_date := some d }

/-- `DBOperations.update_task_end_date` (db_operations.py:497). -/
def update_task_end_date (s : Store) (tid : Nat) (d : Int) : Store :=
  match getTask s tid with
  | none => s
  | some t => setFirstTask s tid { t with end_date := some d }

/-- `DBOperations.update_task_duration` (db_operations.py:540): sets the
`duration` column only. -/
def update_task_duration (s : Store) (tid : Nat) (d : Int) : Store :=
  match getTask s tid with
  | none => s
  | some t => setFirstTask s tid { t with duration := some d }

/-- `DBOperations.update_task_project` (db_operations.py:453).  `projects`
is the id set of the `seaview.projects` table, the target of the
`tasks.project_id` foreign key: committing a project id that does not exist
raises `IntegrityError`, which the `except` clause turns into a rollback. -/
def update_task_project (s : Store) (projects : List Nat) (tid pid : Nat) : Store :=
  match getTask s tid with
  | none => s
  | some t => if pid ∈ projects then setFirstTask s tid { t with project_id := pid } else s

/-- `DBOperations.recalculate_task_end_time` (db_operations.py:519).
The function body uses `timedelta`, but `db_operations.py` imports only
`date` from `datetime` at module scope (line 3) — the `timedelta` import on
line 666 is local to `generate_example_data`.  The loop body therefore
raises `NameError` at the first task having a start date and a truthy
duration, the `except Exception` clause rolls the session back, and no end
date is updated; with no such task the loop completes having assigned
nothing.  Either way the store is returned unchanged. -/
def recalculate_task_end_time (s : Store) : Store := s

/-- Python comparison `a < b` between two optional dates.  When either side
is `None` the comparison raises `TypeError`; the raising case is `none`. -/
def pyLtOpt : Option Int → Option Int → Option Bool
  | some a, some b => some (decide (a < b))
  | _, _ => none

/-- Python `max([h] + tail)` where `tail` holds the non-`None` end dates of
the children (`db_operations.py:615`).  `max` of a singleton returns its
element without comparing; a `None` head compared against a nonempty tail
raises `TypeError` (the `none` result). -/
def pyMaxOpt : Option Int → List Int → Option (Option Int)
  | h, [] => some h
  | some a, b :: bs => some (some ((b :: bs).foldl max a))
  | none, _ :: _ => none

/-- `session.query(CXTask).filter(CXTask.parent_id == parent_id).all()`
(db_operations.py:614): every row whose `parent_id` is the given id, in
table order.  The session autoflushes, so the pending parent assignment on
the new child is visible to this query. -/
def childrenOf (s : Store) (pid : Nat) : List CXTask :=
  (s.filter (fun p => p.2.parent_id == some pid)).map Prod.snd

/-- `DBOperations.set_task_hierarchy` (db_operations.py:586).  Returns
silently when either task is missing; otherwise sets the child's
`parent_id`, raises the child's start date to the parent's when it is
earlier, and sets the parent's end date to
`max([child.end_date] + [c.end_date for c in children if c.end_date is not None])`.
A `TypeError` from a `None` date (in the comparison or inside `max`) is
caught by the `except` clause and rolled back, returning the original
store. -/
def set_task_hierarchy (s : Store) (parent_id child_id : Nat) : Store :=
  match getTask s parent_id, getTask s child_id with
  | none, _ => s
  | some _, none => s
  | some parent, some child =>
    let child1 := { child with parent_id := some parent_id }
    match pyLtOpt child1.start_date parent.start_date with
    | none => s
    | some lt =>
      let child2 := if lt then { child1 with start_date := parent.start_date } else child1
      let s2 := setFirstTask s child_id child2
      let childEnds := ((childrenOf s2 parent_id).map CXTask.end_date).filterMap id
      match pyMaxOpt child2.end_date childEnds with
      | none => s
      | some latest =>
        match getTask s2 parent_id with
        | none => s
        | some parent2 => setFirstTask s2 parent_id { parent2 with end_date := latest }

/-- The generator's dependency date adjustment (db_operations.py:780-783):
read the successor's start date and the predecessor's end date, and when
`start <= end` move the successor's start to the day after the
predecessor's end (`predecessor_end_date + timedelta(days=1)`).
The mismatched-`None` branch corresponds to a Python `TypeError` in the
comparison, which would abort the run with the store in exactly this
state; it is unreachable in the generator because every task is created
with both dates set. -/
def dependencyDateFix (s : Store) (succId predId : Nat) : Store :=
  match get_task_start_date s succId, get_task_end_date s predId with
  | some ts, some pe => if ts ≤ pe then update_task_start_date s succId (pe + 1) else s
  | _, _ => s

/-- In-memory generation state of
`DBExampleProjectSetup.generate_example_data` (db_operations.py:723-784):
`store` is the `tasks` table, `projects` the id set of the `projects`
table, `taskIds` the `task_ids` list, `th` the `task_hierarchy` dict
(mapping a task to its recorded successors/children, in append order),
`mapping` the `task_project_mapping` dict, and `deps` the committed rows of
`seaview.task_dependencies` as (predecessor, successor) pairs. -/
structure GenState where
  store : Store
  projects : List Nat
  taskIds : List Nat
  th : List (Nat × List Nat)
  mapping : List (Nat × Nat)
  deps : List (Nat × Nat)
deriving DecidableEq, Repr

/-- Python dict read `m[k]`.  The generator only reads keys it has
populated (every task id is entered at creation, db_operations.py:737-738);
a missing key would be a `KeyError`, and theorems carry the membership
hypotheses that rule it out.  The default is irrelevant under those
hypotheses. -/
def dictGet : List (Nat × Nat) → Nat → Nat
  | [], _ => 0
  | p :: ps, k => if p.1 == k then p.2 else dictGet ps k

/-- Python dict write `m[k] = v`: overwrite the first binding, or append a
new one. -/
def dictSet : List (Nat × Nat) → Nat → Nat → List (Nat × Nat)
  | [], k, v => [(k, v)]
  | p :: ps, k, v => if p.1 == k then (k, v) :: ps else p :: dictSet ps k v

/-- `k in task_hierarchy`. -/
def thKey (th : List (Nat × List Nat)) (k : Nat) : Bool :=
  th.any (fun p => p.1 == k)

/-- `task_hierarchy[k]` (empty when the key is missing; the generator
initializes every task id to `[]`, so the default is never consulted by a
reachable read). -/
def thGet : List (Nat × List Nat) → Nat → List Nat
  | [], _ => []
  | p :: ps, k => if p.1 == k then p.2 else thGet ps k

/-- `task_hierarchy[k].append(v)` (no-op on a missing key, which would be a
`KeyError` the generator never triggers). -/
def thAppend : List (Nat × List Nat) → Nat → Nat → List (Nat × List Nat)
  | [], _, _ => []
  | p :: ps, k, v => if p.1 == k then (p.1, p.2 ++ [v]) :: ps else p :: thAppend ps k v

/-- The ancestor-exclusion walk of the dependency branch
(db_operations.py:755-761): starting from `task_id`, repeatedly follow the
FIRST entry of `task_hierarchy[current]`, collecting the visited nodes;
stop on an empty list or a missing key (a missing key is not collected).
The Python `while` loop diverges if this first-entry chain is cyclic; a
terminating run never revisits a node, so it takes at most one step per
key, and fuel `th.length + 1` makes this function agree with every
terminating run of the loop. -/
def firstChainWalk (th : List (Nat × List Nat)) : Nat → Nat → List Nat
  | 0, _ => []
  | fuel + 1, cur =>
    if thKey th cur then
      match thGet th cur with
      | [] => [cur]
      | nxt :: _ => cur :: firstChainWalk th fuel nxt
    else []

/-- One iteration of the generator's dependency loop taking the 50%
dependency branch (db_operations.py:749-784), with the iteration's task
`t` and the value `D` drawn by `random.choice(potential_dependent_tasks)`
made explicit.  `D ∉ potential` models choices `random.choice` cannot make
(including an empty candidate list).  The branch at db_operations.py:768
skips — mutating nothing — when `D` is already a recorded successor/child
of `t`; otherwise it reassigns `D`'s project (db:774-775), commits the
dependency edge `D → t` (db:778; the insert rolls back on a duplicate
composite primary key or a missing task foreign key), appends to the
hierarchy dict (db:779) and applies the date fix (db:780-783). -/
def depStep (g : GenState) (t D : Nat) : GenState :=
  let tp := dictGet g.mapping t
  let same := g.taskIds.filter (fun x => dictGet g.mapping x == tp)
  let excluded := firstChainWalk g.th (g.th.length + 1) t
  let potential := same.filter (fun x => ¬ x ∈ excluded)
  if D ∈ potential then
    if thKey g.th t ∧ D ∈ thGet g.th t then g
    else
      let store1 := update_task_project g.store g.projects D tp
      let mapping1 := dictSet g.mapping D tp
      let deps1 := if (D, t) ∈ g.deps ∨ getTask store1 D = none ∨ getTask store1 t = none
                   then g.deps else g.deps ++ [(D, t)]
      let th1 := thAppend g.th D t
      let store2 := dependencyDateFix store1 t D
      { g with store := store2, mapping := mapping1, deps := deps1, th := th1 }
  else g

/-- `reach edges fuel a b`: a nonempty path from `a` to `b` of length at
most `fuel` through the directed edge list.  Property-side definition used
to state (a)cyclicity of the committed dependency graph. -/
def reach (edges : List (Nat × Nat)) : Nat → Nat → Nat → Bool
  | 0, _, _ => false
  | fuel + 1, a, b => edges.any (fun e => e.1 == a && (e.2 == b || reach edges fuel e.2 b))

/-- Every committed dependency edge joins two tasks of the same project. -/
def depEdgesSameProject (g : GenState) : Bool :=
  g.deps.all (fun e =>
    (get_task_project_id g.store e.1).isSome
      && get_task_project_id g.store e.1 == get_task_project_id g.store e.2)

/-- `task_project_mapping` agrees with the stored `project_id` of every
generated task. -/
def mappingMatchesStore (g : GenState) : Bool :=
  g.taskIds.all (fun tid => get_task_project_id g.store tid == some (dictGet g.mapping tid))

/-- The tables of the `seaview` schema touched by the create operations of
`DBOperations` (`db_schema.py`).  Plain tables are kept as their id
columns (serial primary keys, in insertion order); `task_dependencies` is
keyed by its composite primary key `(predecessor_id, successor_id)`;
`task_resource_links` rows are `(task_id, resource_id)` pairs under a
serial primary key.  Non-key columns carry no constraint consulted by any
create operation and are omitted. -/
structure SeaviewDB where
  resources : List Nat
  portfolios : List Nat
  programmes : List Nat
  projects : List Nat
  tasks : List Nat
  task_dependencies : List (Nat × Nat)
  task_resource_links : List (Nat × Nat)
deriving DecidableEq, Repr

/-- Next value of a serial primary key. -/
def freshId (l : List Nat) : Nat := l.foldr max 0 + 1

/-- An optional foreign key is satisfied when it is absent (`NULL`) or
references an existing id. -/
def fkOk (l : List Nat) : Option Nat → Bool
  | none => true
  | some x => l.contains x

/-- IntegrityError condition for `add_project` (db_operations.py:72):
`owner_id`, `portfolio_id` and `programme_id` are foreign keys into
`resources`, `portfolios` and `programmes`. -/
def projectInsertConflict (db : SeaviewDB) (owner : Nat) (pf pg : Option Nat) : Bool :=
  !(db.resources.contains owner && fkOk db.portfolios pf && fkOk db.programmes pg)

/-- IntegrityError condition for `add_task` (db_operations.py:92):
`project_id` is a foreign key into `projects`. -/
def taskInsertConflict (db : SeaviewDB) (project_id : Nat) : Bool :=
  !db.projects.contains project_id

/-- IntegrityError condition for `add_portfolio` (db_operations.py:269). -/
def portfolioInsertConflict (db : SeaviewDB) (owner : Nat) : Bool :=
  !db.resources.contains owner

/-- IntegrityError condition for `add_programme` (db_operations.py:286). -/
def programmeInsertConflict (db : SeaviewDB) (owner : Nat) (pf : Option Nat) : Bool :=
  !(db.resources.contains owner && fkOk db.portfolios pf)

/-- IntegrityError condition for `add_task_dependency`
(db_operations.py:158): duplicate composite primary key
`(predecessor_id, successor_id)`, or either foreign key into `tasks`
missing. -/
def depInsertConflict (db : SeaviewDB) (pred succ : Nat) : Bool :=
  db.task_dependencies.contains (pred, succ)
    || !db.tasks.contains pred || !db.tasks.contains succ

/-- IntegrityError condition for `add_task_resource_link`
(db_operations.py:126): foreign keys into `tasks` and `resources`. -/
def linkInsertConflict (db : SeaviewDB) (task_id resource_id : Nat) : Bool :=
  !db.tasks.contains task_id || !db.resources.contains resource_id

/-- `DBOperations.add_resource` (db_operations.py:56).  The row carries no
foreign key and its non-null columns (`name`, `resource_type`) are always
supplied by callers, so the commit cannot raise; the `Bool` is the
commit/rollback outcome (`true` = committed with a success message,
`false` = `IntegrityError` caught, rolled back, diagnostic printed, normal
return). -/
def add_resource (db : SeaviewDB) (_name _resource_type : String)
    (_username : Option String) : SeaviewDB × Bool :=
  ({ db with resources := db.resources ++ [freshId db.resources] }, true)

/-- `DBOperations.add_project` (db_operations.py:72): commit, or on
`IntegrityError` roll back, print a diagnostic and return normally. -/
def add_project (db : SeaviewDB) (_title : String) (owner_id : Nat) (_start_date : Int)
    (portfolio_id programme_id : Option Nat) : SeaviewDB × Bool :=
  if projectInsertConflict db owner_id portfolio_id programme_id then (db, false)
  else ({ db with projects := db.projects ++ [freshId db.projects] }, true)

/-- `DBOperations.add_task` (db_operations.py:92). -/
def add_task (db : SeaviewDB) (_title _status : String) (project_id : Nat)
    (_start_date _end_date _duration : Option Int) : SeaviewDB × Bool :=
  if taskInsertConflict db project_id then (db, false)
  else ({ db with tasks := db.tasks ++ [freshId db.tasks] }, true)

/-- `DBOperations.add_portfolio` (db_operations.py:269). -/
def add_portfolio (db : SeaviewDB) (_title _goal : String) (owner_id : Nat)
    (_start_date : Int) : SeaviewDB × Bool :=
  if portfolioInsertConflict db owner_id then (db, false)
  else ({ db with portfolios := db.portfolios ++ [freshId db.portfolios] }, true)

/-- `DBOperations.add_programme` (db_operations.py:286). -/
def add_programme (db : SeaviewDB) (_title : String) (owner_id : Nat) (_start_date : Int)
    (portfolio_id : Option Nat) : SeaviewDB × Bool :=
  if programmeInsertConflict db owner_id portfolio_id then (db, false)
  else ({ db with programmes := db.programmes ++ [freshId db.programmes] }, true)

/-- `DBOperations.add_task_dependency` (db_operations.py:158). -/
def add_task_dependency (db : SeaviewDB) (predecessor_id successor_id : Nat) :
    SeaviewDB × Bool :=
  if depInsertConflict db predecessor_id successor_id then (db, false)
  else ({ db with task_dependencies := db.task_dependencies ++ [(predecessor_id, successor_id)] },
        true)

/-- `DBOperations.add_task_resource_link` (db_operations.py:126). -/
def add_task_resource_link (db : SeaviewDB) (task_id resource_id : Nat) :
    SeaviewDB × Bool :=
  if linkInsertConflict db task_id resource_id then (db, false)
  else ({ db with task_resource_links := db.task_resource_links ++ [(task_id, resource_id)] },
        true)

/-- The end-of-iteration end-date recalculation (db_operations.py:815-819):
re-read the task's start date and duration and commit
`end_date = start_date + timedelta(days=duration)`.  The duration read back
is the column default `1.0` applied at insert (the generator never passes a
duration to `add_task`).  A `None` in either read would raise an uncaught
`TypeError`, ending the run with the store in this state; it is unreachable
because every generated task has a start date and the defaulted
duration. -/
def endDateRecalc (g : GenState) (t : Nat) : GenState :=
  match get_task_start_date g.store t, get_task_duration g.store t with
  | some st, some du => { g with store := update_task_end_date g.store t (st + du) }
  | _, _ => g

/-- One full iteration of the generator's dependency loop in which the 50%
branch fires with choice `D`: the dependency branch followed by the
end-date recalculation that closes every iteration. -/
def depIter (g : GenState) (t D : Nat) : GenState :=
  endDateRecalc (depStep g t D) t

/-- Generation state after the task-creation loop for four tasks, all
assigned to project 1: starts drawn from the random date window, end =
start + one day of duration, duration the column default, every task
hierarchy entry initialized empty and the project mapping recorded
(db_operations.py:723-739). -/
def cycleRunInit : GenState :=
  { store := [(1, ⟨1, none, some 1, some 2, some 1⟩), (2, ⟨1, none, some 2, some 3, some 1⟩),
              (3, ⟨1, none, some 3, some 4, some 1⟩), (4, ⟨1, none, some 4, some 5, some 1⟩)]
    projects := [1]
    taskIds := [1, 2, 3, 4]
    th := [(1, []), (2, []), (3, []), (4, [])]
    mapping := [(1, 1), (2, 1), (3, 1), (4, 1)]
    deps := [] }

/-- The state after the first three dependency iterations, in which
`random.choice` draws predecessor 4 for task 1, predecessor 4 for task 2
and predecessor 2 for task 3. -/
def cycleRun3 : GenState := depIter (depIter (depIter cycleRunInit 1 4) 2 4) 3 2

/-- The state after iteration 4 additionally draws predecessor 3 for
task 4. -/
def cycleRun4 : GenState := depIter cycleRun3 4 3

/-- The store on which `recalculate_task_end_time` visibly fails: a single
task with start 0, duration 2 and a stale end date 0. -/
def staleEndStore : Store := [(1, ⟨1, none, some 0, some 0, some 2⟩)]

/-- The store on which the update operations visibly skip the claimed
end-date recomputation: one task with start 0, end 0, duration 5. -/
def updCexStore : Store := [(1, ⟨1, none, some 0, some 0, some 5⟩)]

/-- A store exhibiting every conflict class: no resources, portfolios,
programmes or projects; tasks 1 and 2 with the dependency (1, 2) already
committed. -/
def conflictDB : SeaviewDB := ⟨[], [], [], [], [1, 2], [(1, 2)], []⟩


/-- The child row as committed by `set_task_hierarchy` when both start
dates are present: parent reference set, start raised to the parent's when
earlier (db_operations.py:607-611).  Derived form used to state the
operation's results. -/
def adjChild (C : CXTask) (p : Nat) (ps cs : Int) : CXTask :=
  if cs < ps then { C with parent_id := some p, start_date := some ps }
  else { C with parent_id := some p }

/-- The non-`None` end dates of the direct children of a task, in table
order — the list `set_task_hierarchy` feeds to `max` after the head
(db_operations.py:614-616).  Property-side abbreviation for statements. -/
def dcEnds (s : Store) (pid : Nat) : List Int :=
  ((childrenOf s pid).map CXTask.end_date).filterMap id



/-- Store for the parent-end counterexample: parent task 1 ends on day 10,
its prospective child task 2 on day 5. -/
def parentEndCexStore : Store :=
  [(1, ⟨1, none, some 0, some 10, some 1⟩), (2, ⟨1, none, some 0, some 5, some 1⟩)]

/-- Store for the pre-existing-child counterexample: task 2 is already a
child of task 1 but starts on day 3, before its parent's day 5; task 3 is
the new child. -/
def hierCexStore : Store :=
  [(1, ⟨1, none, some 5, some 10, some 1⟩), (2, ⟨1, some 1, some 3, some 4, some 1⟩),
   (3, ⟨1, none, some 6, some 8, some 1⟩)]



/-- A two-task generation state with both tasks in project 1, used to
exercise the dependency iteration at concrete inputs. -/
def twoTaskGenState : GenState :=
  { store := [(1, ⟨1, none, some 0, some 1, some 1⟩), (2, ⟨1, none, some 0, some 1, some 1⟩)]
    projects := [1]
    taskIds := [1, 2]
    th := [(1, []), (2, [])]
    mapping := [(1, 1), (2, 1)]
    deps := [] }


lemma getTask_setFirstTask_self (s : Store) (tid : Nat) (t T : CXTask)
    (h : getTask s tid = some T) : getTask (setFirstTask s tid t) tid = some t := by
  induction s with
  | nil => simp [getTask] at h
  | cons p ps ih =>
    by_cases hp : p.1 = tid
    · simp [getTask, setFirstTask, beq_iff_eq, hp]
    · simp only [getTask, setFirstTask, beq_iff_eq, if_neg hp] at h ⊢
      exact ih h

lemma getTask_setFirstTask_ne (s : Store) (tid x : Nat) (t : CXTask) (h : x ≠ tid) :
    getTask (setFirstTask s tid t) x = getTask s x := by
  induction s with
  | nil => simp [setFirstTask]
  | cons p ps ih =>
    by_cases hp : p.1 = tid
    · simp [getTask, setFirstTask, beq_iff_eq, hp, Ne.symm h, h]
    · simp only [getTask, setFirstTask, beq_iff_eq, if_neg hp]
      by_cases hx : p.1 = x
      · simp [hx]
      · simp [hx, ih]

lemma getTask_mem (s : Store) (tid : Nat) (T : CXTask)
    (h : getTask s tid = some T) : (tid, T) ∈ s := by
  induction s with
  | nil => simp [getTask] at h
  | cons p ps ih =>
    obtain ⟨k, task⟩ := p
    by_cases hp : k = tid
    · subst hp
      simp only [getTask, beq_self_eq_true, if_pos] at h
      injection h with h2
      subst h2
      exact List.mem_cons_self _ _
    · simp only [getTask, beq_iff_eq, if_neg hp] at h
      exact List.mem_cons_of_mem _ (ih h)

lemma mem_setFirstTask_of_ne (s : Store) (tid x : Nat) (t T : CXTask)
    (h : (x, T) ∈ s) (hx : x ≠ tid) : (x, T) ∈ setFirstTask s tid t := by
  induction s with
  | nil => simp at h
  | cons p ps ih =>
    by_cases hp : p.1 = tid
    · simp only [setFirstTask, beq_iff_eq, if_pos hp]
      rcases List.mem_cons.mp h with h1 | h2
      · exact absurd (by rw [← h1] at hp; exact hp) hx
      · exact List.mem_cons_of_mem _ h2
    · simp only [setFirstTask, beq_iff_eq, if_neg hp]
      rcases List.mem_cons.mp h with h1 | h2
      · exact h1 ▸ List.mem_cons_self _ _
      · exact List.mem_cons_of_mem _ (ih h2)

lemma getTask_update_start (s : Store) (tid : Nat) (v : Int) (x : Nat) :
    getTask (update_task_start_date s tid v) x =
      if x = tid then (getTask s tid).map (fun T => { T with start_date := some v })
      else getTask s x := by
  by_cases hx : x = tid
  · subst hx
    cases h : getTask s x with
    | none => simp [update_task_start_date, h]
    | some T => simp [update_task_start_date, h, getTask_setFirstTask_self s x _ T h]
  · cases h : getTask s tid with
    | none => simp [update_task_start_date, h, hx]
    | some T => simp [update_task_start_date, h, hx, getTask_setFirstTask_ne s tid x _ hx]

lemma getTask_update_end (s : Store) (tid : Nat) (v : Int) (x : Nat) :
    getTask (update_task_end_date s tid v) x =
      if x = tid then (getTask s tid).map (fun T => { T with end_date := some v })
      else getTask s x := by
  by_cases hx : x = tid
  · subst hx
    cases h : getTask s x with
    | none => simp [update_task_end_date, h]
    | some T => simp [update_task_end_date, h, getTask_setFirstTask_self s x _ T h]
  · cases h : getTask s tid with
    | none => simp [update_task_end_date, h, hx]
    | some T => simp [update_task_end_date, h, hx, getTask_setFirstTask_ne s tid x _ hx]

lemma getTask_update_duration (s : Store) (tid : Nat) (v : Int) (x : Nat) :
    getTask (update_task_duration s tid v) x =
      if x = tid then (getTask s tid).map (fun T => { T with duration := some v })
      else getTask s x := by
  by_cases hx : x = tid
  · subst hx
    cases h : getTask s x with
    | none => simp [update_task_duration, h]
    | some T => simp [update_task_duration, h, getTask_setFirstTask_self s x _ T h]
  · cases h : getTask s tid with
    | none => simp [update_task_duration, h, hx]
    | some T => simp [update_task_duration, h, hx, getTask_setFirstTask_ne s tid x _ hx]

lemma getTask_update_project (s : Store) (proj : List Nat) (tid pid : Nat) (x : Nat) :
    getTask (update_task_project s proj tid pid) x =
      if x = tid ∧ pid ∈ proj then
        (getTask s tid).map (fun T => { T with project_id := pid })
      else getTask s x := by
  by_cases hm : pid ∈ proj
  · by_cases hx : x = tid
    · subst hx
      cases h : getTask s x with
      | none => simp [update_task_project, h, hm]
      | some T => simp [update_task_project, h, hm, getTask_setFirstTask_self s x _ T h]
    · cases h : getTask s tid with
      | none => simp [update_task_project, h, hx, hm]
      | some T => simp [update_task_project, h, hx, hm, getTask_setFirstTask_ne s tid x _ hx]
  · cases h : getTask s tid with
    | none => simp [update_task_project, h, hm]
    | some T => simp [update_task_project, h, hm]

lemma end_date_update_start (s : Store) (tid : Nat) (v : Int) (x : Nat) :
    get_task_end_date (update_task_start_date s tid v) x = get_task_end_date s x := by
  simp only [get_task_end_date, getTask_update_start]
  by_cases hx : x = tid
  · subst hx
    cases getTask s x <;> simp
  · simp [hx]

lemma proj_update_start (s : Store) (tid : Nat) (v : Int) (x : Nat) :
    get_task_project_id (update_task_start_date s tid v) x = get_task_project_id s x := by
  simp only [get_task_project_id, getTask_update_start]
  by_cases hx : x = tid
  · subst hx
    cases getTask s x <;> simp
  · simp [hx]

lemma proj_update_end (s : Store) (tid : Nat) (v : Int) (x : Nat) :
    get_task_project_id (update_task_end_date s tid v) x = get_task_project_id s x := by
  simp only [get_task_project_id, getTask_update_end]
  by_cases hx : x = tid
  · subst hx
    cases getTask s x <;> simp
  · simp [hx]

/-- The successor's start date after the generator's date adjustment. -/
lemma dateFix_start (s : Store) (succ pred : Nat) (ts pe : Int)
    (h1 : get_task_start_date s succ = some ts) (h2 : get_task_end_date s pred = some pe) :
    get_task_start_date (dependencyDateFix s succ pred) succ =
      some (if ts ≤ pe then pe + 1 else ts) := by
  obtain ⟨T, hT, hTs⟩ := Option.bind_eq_some.mp h1
  rw [dependencyDateFix, h1, h2]
  by_cases hle : ts ≤ pe
  · simp only [if_pos hle, get_task_start_date, getTask_update_start, if_pos rfl, hT]
    simp
  · simp [if_neg hle, h1, hle]

/-- The date adjustment never touches an end date. -/
lemma dateFix_end (s : Store) (succ pred x : Nat) :
    get_task_end_date (dependencyDateFix s succ pred) x = get_task_end_date s x := by
  rw [dependencyDateFix]
  cases h1 : get_task_start_date s succ with
  | none => rfl
  | some ts =>
    cases h2 : get_task_end_date s pred with
    | none => rfl
    | some pe =>
      by_cases hle : ts ≤ pe
      · simp [hle, end_date_update_start]
      · simp [hle]

/-- The date adjustment never touches a project id. -/
lemma dateFix_proj (s : Store) (succ pred x : Nat) :
    get_task_project_id (dependencyDateFix s succ pred) x = get_task_project_id s x := by
  rw [dependencyDateFix]
  cases h1 : get_task_start_date s succ with
  | none => rfl
  | some ts =>
    cases h2 : get_task_end_date s pred with
    | none => rfl
    | some pe =>
      by_cases hle : ts ≤ pe
      · simp [hle, proj_update_start]
      · simp [hle]

/-- C1.  The generator's cycle check walks only the FIRST entry of each
`task_hierarchy` list (db_operations.py:755-761) plus a direct-successor
test (db:768), so it accepts a candidate edge that closes a longer cycle:
after committing 4→1, 4→2 and 2→3 (an acyclic graph containing the path
4→2→3), iteration 4 draws predecessor 3 — its walk from task 4 only
follows the chain 4, 1 — and commits the edge 3→4, leaving the committed
dependency graph with the cycle 4→2→3→4.  This contradicts the claim that
every cycle-closing candidate is rejected and that the dependency graph is
acyclic at every point during generation. -/
theorem c1_dependency_cycle_committed :
    (([1, 2, 3, 4] : List Nat).all fun n => !reach cycleRun3.deps 4 n n) = true ∧
    reach cycleRun3.deps 4 4 3 = true ∧
    cycleRun4.deps = cycleRun3.deps ++ [(3, 4)] ∧
    reach cycleRun4.deps 4 4 4 = true := by decide

/-- C2 counterexample, the spec's own scenario with dates as
day-of-January-2024 numbers: predecessor task 1 has start 2024-01-01 and
end 2024-01-06; successor task 2 starts 2024-01-02 < end + lag (lag = 0).
The claim demands the successor's start become 2024-01-06, but the code
moves it to `predecessor_end_date + timedelta(days=1)` = 2024-01-07. -/
theorem c2_spec_scenario_counterexample :
    get_task_start_date [(1, ⟨1, none, some 1, some 6, some 5⟩),
        (2, ⟨1, none, some 2, some 7, some 5⟩)] 2 = some 2 ∧
    get_task_end_date [(1, ⟨1, none, some 1, some 6, some 5⟩),
        (2, ⟨1, none, some 2, some 7, some 5⟩)] 1 = some 6 ∧
    (2 : Int) < 6 + 0 ∧
    get_task_start_date (dependencyDateFix [(1, ⟨1, none, some 1, some 6, some 5⟩),
        (2, ⟨1, none, some 2, some 7, some 5⟩)] 2 1) 2 ≠ some (6 + 0) := by decide

/-- C2 amended.  The generator's adjustment of a dependency edge P→S
fires when `S.start_date <= P.end_date` (not strictly `<`) and then sets
`S.start_date = P.end_date + 1` day (not `P.end_date + lag` with the
stored lag 0); otherwise the successor's start date is unchanged. -/
theorem c2_date_adjustment_amended (s : Store) (succ pred : Nat) (ts pe : Int)
    (h1 : get_task_start_date s succ = some ts)
    (h2 : get_task_end_date s pred = some pe) :
    get_task_start_date (dependencyDateFix s succ pred) succ =
      some (if ts ≤ pe then pe + 1 else ts) :=
  dateFix_start s succ pred ts pe h1 h2

theorem c2_date_adjustment_amended_witness :
    get_task_start_date (dependencyDateFix [(1, ⟨1, none, some 1, some 6, some 5⟩),
        (2, ⟨1, none, some 2, some 7, some 5⟩)] 2 1) 2 =
      some (if (2 : Int) ≤ 6 then 6 + 1 else 2) :=
  c2_date_adjustment_amended _ 2 1 2 6 (by decide) (by decide)

/-- C3.  `recalculate_task_end_time` is advertised (docstring,
db_operations.py:521) to set `end_date = start_date + duration`, but its
body references `timedelta`, a name `db_operations.py` never imports at
module scope; the resulting `NameError` is swallowed by the
`except Exception` clause after a rollback, so a task with a stale end
date keeps it: the claimed `end_date = start_date + duration` fails after
the pass. -/
theorem c3_recalculate_end_time_is_noop :
    get_task_start_date staleEndStore 1 = some 0 ∧
    get_task_duration staleEndStore 1 = some 2 ∧
    get_task_end_date (recalculate_task_end_time staleEndStore) 1 = some 0 ∧
    get_task_end_date (recalculate_task_end_time staleEndStore) 1 ≠ some (0 + 2) := by
  decide

/-- C4.  The generator's dependency date adjustment is idempotent: a
second application with unchanged inputs finds the successor already
starting strictly after the predecessor's end and leaves the store
exactly as the first application left it. -/
theorem c4_date_adjustment_idempotent (s : Store) (succ pred : Nat) (ts pe : Int)
    (h1 : get_task_start_date s succ = some ts)
    (h2 : get_task_end_date s pred = some pe) :
    dependencyDateFix (dependencyDateFix s succ pred) succ pred =
      dependencyDateFix s succ pred := by
  have hs := dateFix_start s succ pred ts pe h1 h2
  have he : get_task_end_date (dependencyDateFix s succ pred) pred = some pe := by
    rw [dateFix_end]
    exact h2
  conv_lhs => rw [dependencyDateFix]
  rw [hs, he]
  by_cases hle : ts ≤ pe
  · have h3 : ¬ (pe + 1 ≤ pe) := by omega
    simp [hle, h3]
  · simp [hle]

theorem c4_date_adjustment_idempotent_witness :
    dependencyDateFix (dependencyDateFix [(1, ⟨1, none, some 1, some 6, some 5⟩),
        (2, ⟨1, none, some 2, some 7, some 5⟩)] 2 1) 2 1 =
      dependencyDateFix [(1, ⟨1, none, some 1, some 6, some 5⟩),
        (2, ⟨1, none, some 2, some 7, some 5⟩)] 2 1 :=
  c4_date_adjustment_idempotent _ 2 1 2 6 (by decide) (by decide)

/-- C9 counterexample.  `update_task_start_date` moves the start to 10 and
`update_task_duration` moves the duration to 7, yet in both cases the end
date stays 0 instead of becoming start + duration as claimed. -/
theorem c9_update_counterexample :
    get_task_duration updCexStore 1 = some 5 ∧
    get_task_start_date (update_task_start_date updCexStore 1 10) 1 = some 10 ∧
    get_task_end_date (update_task_start_date updCexStore 1 10) 1 = some 0 ∧
    get_task_end_date (update_task_start_date updCexStore 1 10) 1 ≠ some (10 + 5) ∧
    get_task_duration (update_task_duration updCexStore 1 7) 1 = some 7 ∧
    get_task_end_date (update_task_duration updCexStore 1 7) 1 = some 0 ∧
    get_task_end_date (update_task_duration updCexStore 1 7) 1 ≠ some (0 + 7) := by
  decide

/-- C9 amended.  `update_task_start_date` writes only the start date and
`update_task_duration` writes only the duration; neither recomputes the
end date, which—like the respectively untouched duration/start—keeps its
previous value. -/
theorem c9_update_ops_amended (s : Store) (tid : Nat) (v w : Int) (T : CXTask)
    (h : getTask s tid = some T) :
    get_task_start_date (update_task_start_date s tid v) tid = some v ∧
    get_task_end_date (update_task_start_date s tid v) tid = T.end_date ∧
    get_task_duration (update_task_start_date s tid v) tid = T.duration ∧
    get_task_duration (update_task_duration s tid w) tid = some w ∧
    get_task_start_date (update_task_duration s tid w) tid = T.start_date ∧
    get_task_end_date (update_task_duration s tid w) tid = T.end_date := by
  refine ⟨?_, ?_, ?_, ?_, ?_, ?_⟩ <;>
    simp [get_task_start_date, get_task_end_date, get_task_duration,
      getTask_update_start, getTask_update_duration, h]

theorem c9_update_ops_amended_witness :
    get_task_start_date (update_task_start_date updCexStore 1 10) 1 = some 10 ∧
    get_task_end_date (update_task_start_date updCexStore 1 10) 1 = some 0 ∧
    get_task_duration (update_task_start_date updCexStore 1 10) 1 = some 5 ∧
    get_task_duration (update_task_duration updCexStore 1 7) 1 = some 7 ∧
    get_task_start_date (update_task_duration updCexStore 1 7) 1 = some 0 ∧
    get_task_end_date (update_task_duration updCexStore 1 7) 1 = some 0 :=
  c9_update_ops_amended updCexStore 1 10 7 ⟨1, none, some 0, some 0, some 5⟩ (by decide)

/-- C8.  Every create operation wraps its commit in
`try ... except IntegrityError`, which rolls the session back, prints a
diagnostic and returns normally (db_operations.py:64-70, 85-90, 119-124,
129-135, 169-174, 279-284, 298-303): on a uniqueness or foreign-key
conflict the store is returned exactly as received, paired with the
`false` (diagnostic-emitted) outcome, and — all operations being total —
the generation run is never aborted.  `add_resource` is the one create
operation whose insert carries no violable constraint (serial key, no
foreign key, non-null columns always supplied), so it has no conflict
case to state. -/
theorem c8_create_ops_rollback_on_conflict (db : SeaviewDB)
    (title goal status : String) (owner project_id pred succ task_id resource_id : Nat)
    (sd : Int) (pf pg : Option Nat) (osd oed odur : Option Int) :
    (projectInsertConflict db owner pf pg = true →
      add_project db title owner sd pf pg = (db, false)) ∧
    (taskInsertConflict db project_id = true →
      add_task db title status project_id osd oed odur = (db, false)) ∧
    (portfolioInsertConflict db owner = true →
      add_portfolio db title goal owner sd = (db, false)) ∧
    (programmeInsertConflict db owner pf = true →
      add_programme db title owner sd pf = (db, false)) ∧
    (depInsertConflict db pred succ = true →
      add_task_dependency db pred succ = (db, false)) ∧
    (linkInsertConflict db task_id resource_id = true →
      add_task_resource_link db task_id resource_id = (db, false)) := by
  refine ⟨?_, ?_, ?_, ?_, ?_, ?_⟩ <;> intro h <;>
    simp [add_project, add_task, add_portfolio, add_programme, add_task_dependency,
      add_task_resource_link, h]

theorem c8_create_ops_rollback_witness :
    add_project conflictDB "T" 1 0 none none = (conflictDB, false) ∧
    add_task conflictDB "T" "BLOCKED" 1 none none none = (conflictDB, false) ∧
    add_portfolio conflictDB "T" "G" 1 0 = (conflictDB, false) ∧
    add_programme conflictDB "T" 1 0 none = (conflictDB, false) ∧
    add_task_dependency conflictDB 1 2 = (conflictDB, false) ∧
    add_task_resource_link conflictDB 1 1 = (conflictDB, false) := by
  have H := c8_create_ops_rollback_on_conflict conflictDB "T" "G" "BLOCKED" 1 1 1 2 1 1
    0 none none none none none
  exact ⟨H.1 (by decide), H.2.1 (by decide), H.2.2.1 (by decide), H.2.2.2.1 (by decide),
    H.2.2.2.2.1 (by decide), H.2.2.2.2.2 (by decide)⟩

lemma pyMaxOpt_some (a : Int) (l : List Int) :
    pyMaxOpt (some a) l = some (some (l.foldl max a)) := by
  cases l <;> rfl

lemma le_foldl_max (a : Int) (l : List Int) : a ≤ l.foldl max a := by
  induction l generalizing a with
  | nil => exact le_refl a
  | cons b bs ih => exact le_trans (le_max_left a b) (ih (max a b))

lemma foldl_max_le (a x : Int) (l : List Int) (h : x ∈ l) : x ≤ l.foldl max a := by
  induction l generalizing a with
  | nil => simp at h
  | cons b bs ih =>
    rcases List.mem_cons.mp h with rfl | h2
    · exact le_trans (le_max_right a x) (le_foldl_max _ bs)
    · exact ih _ h2

lemma foldl_max_mem (a : Int) (l : List Int) : l.foldl max a = a ∨ l.foldl max a ∈ l := by
  induction l generalizing a with
  | nil => exact Or.inl rfl
  | cons b bs ih =>
    rcases ih (max a b) with h | h
    · rcases max_choice a b with h2 | h2
      · exact Or.inl (by rw [List.foldl_cons, h, h2])
      · exact Or.inr (by rw [List.foldl_cons, h, h2]; exact List.mem_cons_self _ _)
    · exact Or.inr (List.mem_cons_of_mem _ (by rw [List.foldl_cons]; exact h))

lemma childrenOf_setFirstTask_notchild (s : Store) (tid : Nat) (t T : CXTask) (pid : Nat)
    (h : getTask s tid = some T)
    (hT : T.parent_id ≠ some pid) (ht : t.parent_id ≠ some pid) :
    childrenOf (setFirstTask s tid t) pid = childrenOf s pid := by
  induction s with
  | nil => rfl
  | cons q qs ih =>
    by_cases hq : q.1 = tid
    · simp only [getTask, beq_iff_eq, if_pos hq] at h
      injection h with h2
      simp only [setFirstTask, beq_iff_eq, if_pos hq, childrenOf, List.filter_cons]
      rw [h2]
      simp [hT, ht]
    · simp only [getTask, beq_iff_eq, if_neg hq] at h
      have htail := ih h
      simp only [childrenOf] at htail ⊢
      simp only [setFirstTask, beq_iff_eq, if_neg hq, List.filter_cons]
      split <;> simp [htail]

lemma mem_dcEnds (s : Store) (pid tid : Nat) (T : CXTask) (e : Int)
    (h : getTask s tid = some T) (hpar : T.parent_id = some pid)
    (he : T.end_date = some e) : e ∈ dcEnds s pid := by
  have hmem : (tid, T) ∈ s := getTask_mem _ _ _ h
  have hchild : T ∈ childrenOf s pid := by
    refine List.mem_map.mpr ⟨(tid, T), List.mem_filter.mpr ⟨hmem, ?_⟩, rfl⟩
    simp [hpar]
  refine List.mem_filterMap.mpr ⟨some e, List.mem_map.mpr ⟨T, hchild, he⟩, rfl⟩

/-- Complete unfolding of `set_task_hierarchy` when both tasks exist, are
distinct, and carry the dates the operation reads: the child row is
committed as `adjChild` and the parent's end date becomes the maximum of
the child's end date and the non-`None` end dates of the parent's direct
children as seen after the child's flush. -/
lemma set_task_hierarchy_eq (s : Store) (p c : Nat) (P C : CXTask) (ps cs ce : Int)
    (hP : getTask s p = some P) (hC : getTask s c = some C) (hpc : p ≠ c)
    (hps : P.start_date = some ps) (hcs : C.start_date = some cs)
    (hce : C.end_date = some ce) :
    set_task_hierarchy s p c =
      setFirstTask (setFirstTask s c (adjChild C p ps cs)) p
        { P with
          end_date :=
            some ((dcEnds (setFirstTask s c (adjChild C p ps cs)) p).foldl max ce) } := by
  have hgp : getTask (setFirstTask s c (adjChild C p ps cs)) p = some P := by
    rw [getTask_setFirstTask_ne s c p _ hpc]
    exact hP
  by_cases hlt : cs < ps
  · simp only [adjChild, if_pos hlt] at hgp
    rw [hce] at hgp
    simp [set_task_hierarchy, hP, hC, hcs, hps, hce, pyLtOpt, adjChild, dcEnds, hlt,
      pyMaxOpt_some, hgp]
  · simp only [adjChild, if_neg hlt] at hgp
    rw [hce, hcs] at hgp
    simp [set_task_hierarchy, hP, hC, hcs, hps, hce, pyLtOpt, adjChild, dcEnds, hlt,
      pyMaxOpt_some, hgp]

lemma adjChild_start (C : CXTask) (p : Nat) (ps cs : Int) (hcs : C.start_date = some cs) :
    (adjChild C p ps cs).start_date = some (if cs < ps then ps else cs) := by
  unfold adjChild
  split <;> simp_all

lemma adjChild_end (C : CXTask) (p : Nat) (ps cs : Int) :
    (adjChild C p ps cs).end_date = C.end_date := by
  unfold adjChild
  split <;> rfl

lemma adjChild_duration (C : CXTask) (p : Nat) (ps cs : Int) :
    (adjChild C p ps cs).duration = C.duration := by
  unfold adjChild
  split <;> rfl

lemma adjChild_parent (C : CXTask) (p : Nat) (ps cs : Int) :
    (adjChild C p ps cs).parent_id = some p := by
  unfold adjChild
  split <;> rfl

lemma sth_child_row (s : Store) (p c : Nat) (P C : CXTask) (ps cs ce : Int)
    (hP : getTask s p = some P) (hC : getTask s c = some C) (hpc : p ≠ c)
    (hps : P.start_date = some ps) (hcs : C.start_date = some cs)
    (hce : C.end_date = some ce) :
    getTask (set_task_hierarchy s p c) c = some (adjChild C p ps cs) := by
  rw [set_task_hierarchy_eq s p c P C ps cs ce hP hC hpc hps hcs hce,
    getTask_setFirstTask_ne _ p c _ (Ne.symm hpc)]
  exact getTask_setFirstTask_self s c _ C hC

lemma sth_parent_row (s : Store) (p c : Nat) (P C : CXTask) (ps cs ce : Int)
    (hP : getTask s p = some P) (hC : getTask s c = some C) (hpc : p ≠ c)
    (hps : P.start_date = some ps) (hcs : C.start_date = some cs)
    (hce : C.end_date = some ce) :
    getTask (set_task_hierarchy s p c) p =
      some { P with
             end_date :=
               some ((dcEnds (setFirstTask s c (adjChild C p ps cs)) p).foldl max ce) } := by
  have hgp : getTask (setFirstTask s c (adjChild C p ps cs)) p = some P := by
    rw [getTask_setFirstTask_ne s c p _ hpc]
    exact hP
  rw [set_task_hierarchy_eq s p c P C ps cs ce hP hC hpc hps hcs hce]
  exact getTask_setFirstTask_self _ p _ P hgp

/-- When the parent is not recorded as its own child, the final parent-row
write does not change the set of direct children nor their end dates. -/
lemma sth_dcEnds (s : Store) (p c : Nat) (P C : CXTask) (ps cs ce : Int)
    (hP : getTask s p = some P) (hC : getTask s c = some C) (hpc : p ≠ c)
    (hps : P.start_date = some ps) (hcs : C.start_date = some cs)
    (hce : C.end_date = some ce) (hpp : P.parent_id ≠ some p) :
    dcEnds (set_task_hierarchy s p c) p = dcEnds (setFirstTask s c (adjChild C p ps cs)) p := by
  have hgp : getTask (setFirstTask s c (adjChild C p ps cs)) p = some P := by
    rw [getTask_setFirstTask_ne s c p _ hpc]
    exact hP
  rw [set_task_hierarchy_eq s p c P C ps cs ce hP hC hpc hps hcs hce]
  have h2 := childrenOf_setFirstTask_notchild (setFirstTask s c (adjChild C p ps cs)) p
    { P with
      end_date := some ((dcEnds (setFirstTask s c (adjChild C p ps cs)) p).foldl max ce) }
    P p hgp hpp hpp
  unfold dcEnds at h2 ⊢
  rw [h2]

/-- C10.  For distinct existing parent and child whose read dates are set
(as for every generated task), `set_task_hierarchy` raises the child's
start date to the parent's exactly when it is earlier, leaves the child's
end date and duration untouched at that point, and never writes the
parent's start date. -/
theorem c10_hierarchy_child_start_rule (s : Store) (p c : Nat) (P C : CXTask) (ps cs ce : Int)
    (hP : getTask s p = some P) (hC : getTask s c = some C) (hpc : p ≠ c)
    (hps : P.start_date = some ps) (hcs : C.start_date = some cs)
    (hce : C.end_date = some ce) :
    get_task_start_date (set_task_hierarchy s p c) c = some (if cs < ps then ps else cs) ∧
    get_task_end_date (set_task_hierarchy s p c) c = some ce ∧
    get_task_duration (set_task_hierarchy s p c) c = C.duration ∧
    get_task_start_date (set_task_hierarchy s p c) p = some ps := by
  have hc := sth_child_row s p c P C ps cs ce hP hC hpc hps hcs hce
  have hp := sth_parent_row s p c P C ps cs ce hP hC hpc hps hcs hce
  refine ⟨?_, ?_, ?_, ?_⟩
  · simp [get_task_start_date, hc, adjChild_start _ _ _ _ hcs]
  · simp [get_task_end_date, hc, adjChild_end, hce]
  · simp [get_task_duration, hc, adjChild_duration]
  · simp [get_task_start_date, hp, hps]

theorem c10_hierarchy_child_start_rule_witness :
    get_task_start_date (set_task_hierarchy [(1, ⟨1, none, some 5, some 10, some 1⟩),
        (2, ⟨1, none, some 3, some 4, some 1⟩)] 1 2) 2 =
      some (if (3 : Int) < 5 then 5 else 3) ∧
    get_task_end_date (set_task_hierarchy [(1, ⟨1, none, some 5, some 10, some 1⟩),
        (2, ⟨1, none, some 3, some 4, some 1⟩)] 1 2) 2 = some 4 ∧
    get_task_duration (set_task_hierarchy [(1, ⟨1, none, some 5, some 10, some 1⟩),
        (2, ⟨1, none, some 3, some 4, some 1⟩)] 1 2) 2 =
      CXTask.duration ⟨1, none, some 3, some 4, some 1⟩ ∧
    get_task_start_date (set_task_hierarchy [(1, ⟨1, none, some 5, some 10, some 1⟩),
        (2, ⟨1, none, some 3, some 4, some 1⟩)] 1 2) 1 = some 5 :=
  c10_hierarchy_child_start_rule _ 1 2 ⟨1, none, some 5, some 10, some 1⟩
    ⟨1, none, some 3, some 4, some 1⟩ 5 3 4 (by decide) (by decide) (by decide)
    (by decide) (by decide) (by decide)

/-- C5 counterexample.  Parent task 1 ends on day 10, its new child task 2
on day 5; after `set_task_hierarchy` the parent's end date is 5, not
`max(10, 5) = 10`: the parent's own end date is not among the candidates
of the maximum (db_operations.py:615-618 takes the max over the new
child's end and the children's ends only). -/
theorem c5_parent_own_end_counterexample :
    get_task_end_date parentEndCexStore 1 = some 10 ∧
    get_task_end_date parentEndCexStore 2 = some 5 ∧
    get_task_end_date (set_task_hierarchy parentEndCexStore 1 2) 1 = some 5 ∧
    get_task_end_date (set_task_hierarchy parentEndCexStore 1 2) 1 ≠ some (max 10 5) := by
  decide

/-- C5 amended.  `set_task_hierarchy` sets the parent's end date to the
maximum of the end dates of its direct children as committed (the new
child included) — an end date attained by one of the children and bounding
all of them — with the parent's own previous end date not a candidate. -/
theorem c5_parent_end_amended (s : Store) (p c : Nat) (P C : CXTask) (ps cs ce : Int)
    (hP : getTask s p = some P) (hC : getTask s c = some C) (hpc : p ≠ c)
    (hps : P.start_date = some ps) (hcs : C.start_date = some cs)
    (hce : C.end_date = some ce) (hpp : P.parent_id ≠ some p) :
    ∃ m, get_task_end_date (set_task_hierarchy s p c) p = some m ∧
      m ∈ dcEnds (set_task_hierarchy s p c) p ∧
      ∀ e ∈ dcEnds (set_task_hierarchy s p c) p, e ≤ m := by
  have hdc := sth_dcEnds s p c P C ps cs ce hP hC hpc hps hcs hce hpp
  have hp := sth_parent_row s p c P C ps cs ce hP hC hpc hps hcs hce
  have hceMem : ce ∈ dcEnds (setFirstTask s c (adjChild C p ps cs)) p := by
    refine mem_dcEnds _ p c (adjChild C p ps cs) ce ?_ (adjChild_parent C p ps cs) ?_
    · exact getTask_setFirstTask_self s c _ C hC
    · rw [adjChild_end]
      exact hce
  refine ⟨(dcEnds (setFirstTask s c (adjChild C p ps cs)) p).foldl max ce, ?_, ?_, ?_⟩
  · simp [get_task_end_date, hp]
  · rw [hdc]
    rcases foldl_max_mem ce (dcEnds (setFirstTask s c (adjChild C p ps cs)) p) with h | h
    · rw [h]
      exact hceMem
    · exact h
  · rw [hdc]
    intro e he
    exact foldl_max_le ce e _ he

theorem c5_parent_end_amended_witness :
    ∃ m, get_task_end_date (set_task_hierarchy parentEndCexStore 1 2) 1 = some m ∧
      m ∈ dcEnds (set_task_hierarchy parentEndCexStore 1 2) 1 ∧
      ∀ e ∈ dcEnds (set_task_hierarchy parentEndCexStore 1 2) 1, e ≤ m :=
  c5_parent_end_amended parentEndCexStore 1 2 ⟨1, none, some 0, some 10, some 1⟩
    ⟨1, none, some 0, some 5, some 1⟩ 0 0 5 (by decide) (by decide) (by decide)
    (by decide) (by decide) (by decide) (by decide)

/-- C6 counterexample.  Task 2 is already a child of task 1 but starts on
day 3, before the parent's day 5 (e.g. because the parent's start was
updated after the edge was created).  Attaching the new child task 3
leaves task 2's start untouched, so after the hierarchy edge is created
the parent has a direct child with both dates set whose start precedes the
parent's start, contradicting `parent.start_date <= child.start_date`. -/
theorem c6_preexisting_child_counterexample :
    (getTask (set_task_hierarchy hierCexStore 1 3) 3).map CXTask.parent_id =
      some (some 1) ∧
    (getTask (set_task_hierarchy hierCexStore 1 3) 2).map CXTask.parent_id =
      some (some 1) ∧
    get_task_start_date (set_task_hierarchy hierCexStore 1 3) 2 = some 3 ∧
    get_task_end_date (set_task_hierarchy hierCexStore 1 3) 2 = some 4 ∧
    get_task_start_date (set_task_hierarchy hierCexStore 1 3) 1 = some 5 ∧
    ¬ ((5 : Int) ≤ 3) := by decide

/-- C6 amended.  After `set_task_hierarchy` commits, the parent's end date
bounds the end date of every direct child (any row whose `parent_id` is
the parent), and the parent's start date bounds the NEW child's start
date; pre-existing children's start dates are not revisited. -/
theorem c6_hierarchy_dates_amended (s : Store) (p c : Nat) (P C : CXTask) (ps cs ce : Int)
    (hP : getTask s p = some P) (hC : getTask s c = some C) (hpc : p ≠ c)
    (hps : P.start_date = some ps) (hcs : C.start_date = some cs)
    (hce : C.end_date = some ce) (hpp : P.parent_id ≠ some p) :
    ∃ m, get_task_end_date (set_task_hierarchy s p c) p = some m ∧
      (∀ tid T e, getTask (set_task_hierarchy s p c) tid = some T →
        T.parent_id = some p → T.end_date = some e → e ≤ m) ∧
      get_task_start_date (set_task_hierarchy s p c) p = some ps ∧
      get_task_start_date (set_task_hierarchy s p c) c = some (if cs < ps then ps else cs) ∧
      ps ≤ if cs < ps then ps else cs := by
  have hdc := sth_dcEnds s p c P C ps cs ce hP hC hpc hps hcs hce hpp
  have hp := sth_parent_row s p c P C ps cs ce hP hC hpc hps hcs hce
  have hc := sth_child_row s p c P C ps cs ce hP hC hpc hps hcs hce
  refine ⟨(dcEnds (setFirstTask s c (adjChild C p ps cs)) p).foldl max ce, ?_, ?_, ?_, ?_, ?_⟩
  · simp [get_task_end_date, hp]
  · intro tid T e hT hpar he
    have hmem : e ∈ dcEnds (set_task_hierarchy s p c) p := mem_dcEnds _ p tid T e hT hpar he
    rw [hdc] at hmem
    exact foldl_max_le ce e _ hmem
  · simp [get_task_start_date, hp, hps]
  · simp [get_task_start_date, hc, adjChild_start _ _ _ _ hcs]
  · split <;> omega

theorem c6_hierarchy_dates_amended_witness :
    ∃ m, get_task_end_date (set_task_hierarchy hierCexStore 1 3) 1 = some m ∧
      (∀ tid T e, getTask (set_task_hierarchy hierCexStore 1 3) tid = some T →
        T.parent_id = some 1 → T.end_date = some e → e ≤ m) ∧
      get_task_start_date (set_task_hierarchy hierCexStore 1 3) 1 = some 5 ∧
      get_task_start_date (set_task_hierarchy hierCexStore 1 3) 3 =
        some (if (6 : Int) < 5 then 5 else 6) ∧
      (5 : Int) ≤ if (6 : Int) < 5 then 5 else 6 :=
  c6_hierarchy_dates_amended hierCexStore 1 3 ⟨1, none, some 5, some 10, some 1⟩
    ⟨1, none, some 6, some 8, some 1⟩ 5 6 8 (by decide) (by decide) (by decide)
    (by decide) (by decide) (by decide) (by decide)

lemma list_all_congr {α : Type} (l : List α) (f h : α → Bool)
    (hfh : ∀ a ∈ l, f a = h a) : l.all f = l.all h := by
  induction l with
  | nil => rfl
  | cons a l ih =>
    simp only [List.all_cons]
    rw [hfh a (List.mem_cons_self a l), ih (fun b hb => hfh b (List.mem_cons_of_mem a hb))]

lemma mappingMatchesStore_iff (g : GenState) :
    mappingMatchesStore g = true ↔
      ∀ tid ∈ g.taskIds,
        get_task_project_id g.store tid = some (dictGet g.mapping tid) := by
  simp [mappingMatchesStore, List.all_eq_true]

lemma depEdgesSameProject_iff (g : GenState) :
    depEdgesSameProject g = true ↔
      ∀ e ∈ g.deps, (get_task_project_id g.store e.1).isSome = true ∧
        get_task_project_id g.store e.1 = get_task_project_id g.store e.2 := by
  simp [depEdgesSameProject, List.all_eq_true, Bool.and_eq_true]

lemma dictGet_dictSet (m : List (Nat × Nat)) (k v x : Nat) :
    dictGet (dictSet m k v) x = if x = k then v else dictGet m x := by
  induction m with
  | nil =>
    by_cases hx : x = k
    · simp [dictSet, dictGet, hx]
    · have hkx : ¬ (k = x) := fun h => hx h.symm
      simp [dictSet, dictGet, hx, hkx]
  | cons q qs ih =>
    by_cases hq : q.1 = k
    · by_cases hx : x = k
      · simp [dictSet, dictGet, hq, hx]
      · have hkx : ¬ (k = x) := fun h => hx h.symm
        have hqx : ¬ (q.1 = x) := by rw [hq]; exact hkx
        simp [dictSet, dictGet, hq, hx, hkx, hqx]
    · by_cases hqx : q.1 = x
      · have hxk : ¬ (x = k) := fun h => hq (by rw [hqx, h])
        simp [dictSet, dictGet, hq, hqx, hxk]
      · simp [dictSet, dictGet, hq, hqx, ih]

lemma endDateRecalc_mapping_inv (g : GenState) (t : Nat) :
    mappingMatchesStore (endDateRecalc g t) = mappingMatchesStore g := by
  unfold endDateRecalc
  cases h1 : get_task_start_date g.store t with
  | none => rfl
  | some st =>
    cases h2 : get_task_duration g.store t with
    | none => rfl
    | some du =>
      unfold mappingMatchesStore
      exact list_all_congr _ _ _ (fun tid _ => by rw [proj_update_end])

lemma endDateRecalc_deps_inv (g : GenState) (t : Nat) :
    depEdgesSameProject (endDateRecalc g t) = depEdgesSameProject g := by
  unfold endDateRecalc
  cases h1 : get_task_start_date g.store t with
  | none => rfl
  | some st =>
    cases h2 : get_task_duration g.store t with
    | none => rfl
    | some du =>
      unfold depEdgesSameProject
      exact list_all_congr _ _ _ (fun e _ => by rw [proj_update_end, proj_update_end])

lemma depStep_invariants (g : GenState) (t D : Nat) (ht : t ∈ g.taskIds)
    (hm : mappingMatchesStore g = true) (hd : depEdgesSameProject g = true) :
    mappingMatchesStore (depStep g t D) = true ∧
    depEdgesSameProject (depStep g t D) = true := by
  have hmP := (mappingMatchesStore_iff g).mp hm
  have hdP := (depEdgesSameProject_iff g).mp hd
  by_cases h1 : D ∈ (g.taskIds.filter
      (fun x => dictGet g.mapping x == dictGet g.mapping t)).filter
      (fun x => ¬ x ∈ firstChainWalk g.th (g.th.length + 1) t)
  · by_cases h2 : thKey g.th t = true ∧ D ∈ thGet g.th t
    · simp only [depStep, if_pos h1, if_pos h2]
      exact ⟨hm, hd⟩
    · simp only [depStep, if_pos h1, if_neg h2]
      have hDfacts : D ∈ g.taskIds ∧ dictGet g.mapping D = dictGet g.mapping t := by
        have hms := (List.mem_filter.mp h1).1
        have h3 := List.mem_filter.mp hms
        refine ⟨h3.1, ?_⟩
        simpa [beq_iff_eq] using h3.2
      have hprojD : get_task_project_id g.store D = some (dictGet g.mapping t) := by
        rw [hmP D hDfacts.1, hDfacts.2]
      have hprojT : get_task_project_id g.store t = some (dictGet g.mapping t) :=
        hmP t ht
      have hproj1 : ∀ x,
          get_task_project_id
            (update_task_project g.store g.projects D (dictGet g.mapping t)) x =
            get_task_project_id g.store x := by
        intro x
        unfold get_task_project_id
        rw [getTask_update_project]
        split
        · rename_i hcond
          obtain ⟨rfl, -⟩ := hcond
          cases hg : getTask g.store x with
          | none =>
            rw [get_task_project_id, hg] at hprojD
            simp at hprojD
          | some T =>
            rw [get_task_project_id, hg] at hprojD
            simp at hprojD
            simp [hprojD]
        · rfl
      have hproj2 : ∀ x,
          get_task_project_id
            (dependencyDateFix
              (update_task_project g.store g.projects D (dictGet g.mapping t)) t D) x =
            get_task_project_id g.store x := by
        intro x
        rw [dateFix_proj, hproj1]
      constructor
      · rw [mappingMatchesStore_iff]
        dsimp only
        intro tid htid
        rw [hproj2 tid, dictGet_dictSet]
        by_cases hxD : tid = D
        · subst hxD
          simp [hprojD]
        · simp only [if_neg hxD]
          exact hmP tid htid
      · rw [depEdgesSameProject_iff]
        dsimp only
        intro e he
        rw [hproj2 e.1, hproj2 e.2]
        split at he
        · exact hdP e he
        · rcases List.mem_append.mp he with h3 | h3
          · exact hdP e h3
          · simp only [List.mem_singleton] at h3
            subst h3
            dsimp only
            rw [hprojD, hprojT]
            simp
  · simp only [depStep, if_neg h1]
    exact ⟨hm, hd⟩

/-- C7.  One full generator dependency iteration preserves both (a) every
committed dependency edge joins a predecessor and successor stored with
the same project id, and (b) the in-memory project mapping agrees with
the store.  The accepted branch first reassigns the dependent task's
project to the iteration task's project (db_operations.py:774-775) — a
value-level no-op since candidates are drawn from
`same_project_task_ids` — and only then commits the edge (db:778), so at
the moment an edge is committed, and ever after, its two tasks are
assigned to the same project. -/
theorem c7_committed_dependency_edges_same_project (g : GenState) (t D : Nat)
    (ht : t ∈ g.taskIds)
    (hm : mappingMatchesStore g = true) (hd : depEdgesSameProject g = true) :
    mappingMatchesStore (depIter g t D) = true ∧
    depEdgesSameProject (depIter g t D) = true := by
  obtain ⟨h1, h2⟩ := depStep_invariants g t D ht hm hd
  rw [depIter, endDateRecalc_mapping_inv, endDateRecalc_deps_inv]
  exact ⟨h1, h2⟩

theorem c7_committed_dependency_edges_same_project_witness :
    mappingMatchesStore (depIter twoTaskGenState 1 2) = true ∧
    depEdgesSameProject (depIter twoTaskGenState 1 2) = true :=
  c7_committed_dependency_edges_same_project twoTaskGenState 1 2 (by decide) (by decide)
    (by decide)
